import Mathlib

/-!
Verification of the structured logging subsystem of the jerseyshore server
(logger facade, console transport, file transport with size rotation,
request-correlation middleware) against its natural-language specification.

The definitions below are shallow embeddings of the TypeScript sources:
  * src/utils/logging/config.ts   — `LogLevel`, `LoggingConfig`, `shouldLog`
  * src/utils/logger.ts           — `Logger.log`, `createLogEntry`, `close`
  * src/utils/logging/transports.ts — `ConsoleTransport`, `FileTransport`
  * src/middleware (request logger) — status-code to severity mapping
-/

/-! ## Severity levels and configuration (src/utils/logging/config.ts) -/

/-- `export type LogLevel = 'debug' | 'info' | 'warn' | 'error'`. -/
inductive LogLevel where
  | debug
  | info
  | warn
  | error
deriving DecidableEq, Repr

/-- `const levels: LogLevel[] = ['debug', 'info', 'warn', 'error']` in `shouldLog`. -/
def levels : List LogLevel := [LogLevel.debug, LogLevel.info, LogLevel.warn, LogLevel.error]

/-- Accumulator form of JavaScript `Array.prototype.indexOf`: returns the
index of the first occurrence, or `-1` when the element is absent. -/
def jsIndexOfAux (a : LogLevel) : List LogLevel → Int → Int
  | [], _ => -1
  | b :: bs, k => if b = a then k else jsIndexOfAux a bs (k + 1)

/-- JavaScript `levels.indexOf(a)`. -/
def jsIndexOf (a : LogLevel) (l : List LogLevel) : Int := jsIndexOfAux a l 0

/-- `logFormat: 'json' | 'text'`. -/
inductive LogFormat where
  | json
  | text
deriving DecidableEq, Repr

/-- The `LoggingConfig` interface of config.ts. -/
structure LoggingConfig where
  level : LogLevel
  enableConsole : Bool
  enableFileTransport : Bool
  logDir : String
  logFileName : String
  maxFileSize : Nat
  maxFiles : Nat
  enableRequestLogging : Bool
  enableErrorReporting : Bool
  logFormat : LogFormat

/-- `shouldLog(level, config)`: `messageLevelIndex >= configLevelIndex` where the
indices are `levels.indexOf(...)`. -/
def shouldLog (level : LogLevel) (config : LoggingConfig) : Bool :=
  decide (jsIndexOf config.level levels ≤ jsIndexOf level levels)

/-! ## Log entries (src/utils/logging/transports.ts) and the Logger facade -/

/-- The `error` sub-object of a `LogEntry`: `{message, stack?, name}`. -/
structure ErrorInfo where
  message : String
  stack : Option String
  name : String
deriving DecidableEq, Repr

/-- The `LogEntry` interface.  `metadata: Record<string, any>` is modelled as an
ordered string-to-string mapping. -/
structure LogEntry where
  timestamp : String
  level : LogLevel
  message : String
  context : Option String
  error : Option ErrorInfo
  metadata : Option (List (String × String))
  requestId : Option String
  userId : Option String
deriving DecidableEq, Repr

/-- The options bag taken by `Logger.debug/info/warn/error`. -/
structure LogOptions where
  context : Option String
  error : Option ErrorInfo
  metadata : Option (List (String × String))
  requestId : Option String
deriving DecidableEq, Repr

/-- `Logger.createLogEntry`: builds the entry, mapping `options.error` to its
`{message, stack, name}` projection; `userId` is never populated. -/
def createLogEntry (now : String) (level : LogLevel) (message : String)
    (options : LogOptions) : LogEntry :=
  { timestamp := now
    level := level
    message := message
    context := options.context
    error := options.error
    metadata := options.metadata
    requestId := options.requestId
    userId := none }

/-- One transport dispatch performed by `Logger.log`. -/
inductive Dispatch where
  | console (e : LogEntry)
  | file (e : LogEntry)
deriving DecidableEq, Repr

/-- `Logger.log`: returns early (constructing nothing) when `shouldLog` fails;
otherwise constructs the entry and dispatches to the console transport when
`config.enableConsole` and to the file transport when
`config.enableFileTransport` (the transport is instantiated exactly when that
flag is set, so the `this.fileTransport` null-check coincides with the flag).
The first component records the constructed `LogEntry`, if any. -/
def loggerLog (config : LoggingConfig) (now : String) (level : LogLevel)
    (message : String) (options : LogOptions) : Option LogEntry × List Dispatch :=
  if shouldLog level config = false then (none, [])
  else
    let entry := createLogEntry now level message options
    (some entry,
      (if config.enableConsole then [Dispatch.console entry] else []) ++
      (if config.enableFileTransport then [Dispatch.file entry] else []))

/-! ## Claim C1: the severity gate -/

/-- C1: with the console transport enabled (as `getLoggingConfig` always sets
`enableConsole: true`), a log call at severity `L` against threshold `T`
dispatches to a transport iff the ordinal of `L` in
`debug < info < warn < error` is at least that of `T`; when `L` is strictly
below `T`, no `LogEntry` is constructed and no transport is invoked. -/
theorem logger_gate_iff (config : LoggingConfig) (now message : String)
    (level : LogLevel) (options : LogOptions)
    (hc : config.enableConsole = true) :
    ((loggerLog config now level message options).2 ≠ [] ↔
      jsIndexOf config.level levels ≤ jsIndexOf level levels)
    ∧ (jsIndexOf level levels < jsIndexOf config.level levels →
      loggerLog config now level message options = (none, [])) := by
  constructor
  · by_cases h : jsIndexOf config.level levels ≤ jsIndexOf level levels
    · simp [loggerLog, shouldLog, h, hc]
    · simp [loggerLog, shouldLog, h]
  · intro h
    have h' : ¬ jsIndexOf config.level levels ≤ jsIndexOf level levels := by omega
    simp [loggerLog, shouldLog, h']

/-- Witness for C1 at a concrete configuration (threshold `warn`, call at
`error`, and a call at `info` in the contrapositive direction). -/
theorem logger_gate_iff_witness :
    ({ level := LogLevel.warn, enableConsole := true, enableFileTransport := false,
       logDir := "logs", logFileName := "app.log", maxFileSize := 10485760,
       maxFiles := 5, enableRequestLogging := true, enableErrorReporting := false,
       logFormat := LogFormat.text : LoggingConfig }.enableConsole = true)
    ∧ (((loggerLog
        { level := LogLevel.warn, enableConsole := true, enableFileTransport := false,
          logDir := "logs", logFileName := "app.log", maxFileSize := 10485760,
          maxFiles := 5, enableRequestLogging := true, enableErrorReporting := false,
          logFormat := LogFormat.text } "t" LogLevel.error "boom"
        { context := none, error := none, metadata := none, requestId := none }).2 ≠ [] ↔
      jsIndexOf LogLevel.warn levels ≤ jsIndexOf LogLevel.error levels)
    ∧ (jsIndexOf LogLevel.error levels < jsIndexOf LogLevel.warn levels →
      loggerLog
        { level := LogLevel.warn, enableConsole := true, enableFileTransport := false,
          logDir := "logs", logFileName := "app.log", maxFileSize := 10485760,
          maxFiles := 5, enableRequestLogging := true, enableErrorReporting := false,
          logFormat := LogFormat.text } "t" LogLevel.error "boom"
        { context := none, error := none, metadata := none, requestId := none } = (none, []))) :=
  ⟨rfl, logger_gate_iff _ "t" "boom" LogLevel.error
    { context := none, error := none, metadata := none, requestId := none } rfl⟩

/-! ## Claim C9: status-code to severity mapping (request logging middleware) -/

/-- The `finish` handler of `requestLogger`:
`statusCode >= 500 ? 'error' : statusCode >= 400 ? 'warn' : 'info'`. -/
def statusLogLevel (statusCode : Nat) : LogLevel :=
  if statusCode ≥ 500 then LogLevel.error
  else if statusCode ≥ 400 then LogLevel.warn
  else LogLevel.info

/-- C9: the finish entry's severity is determined solely by the status code:
`error` iff status ≥ 500, `warn` iff 400 ≤ status < 500, `info` iff
status < 400; in particular 200 ↦ info, 404 ↦ warn, 500 ↦ error. -/
theorem status_severity (statusCode : Nat) :
    (statusLogLevel statusCode = LogLevel.error ↔ 500 ≤ statusCode)
    ∧ (statusLogLevel statusCode = LogLevel.warn ↔ 400 ≤ statusCode ∧ statusCode < 500)
    ∧ (statusLogLevel statusCode = LogLevel.info ↔ statusCode < 400)
    ∧ statusLogLevel 200 = LogLevel.info
    ∧ statusLogLevel 404 = LogLevel.warn
    ∧ statusLogLevel 500 = LogLevel.error := by
  refine ⟨?_, ?_, ?_, by decide, by decide, by decide⟩ <;>
    unfold statusLogLevel <;> split <;> rename_i h1
  · simp; omega
  · split <;> rename_i h2 <;> simp <;> omega
  · simp; omega
  · split <;> rename_i h2 <;> simp <;> omega
  · simp; omega
  · split <;> rename_i h2 <;> simp <;> omega

/-! ## Claim C2: log calls never raise to the caller

Synchronous exception propagation through `Logger.log` is modelled in
`Except Unit`.  The fallible filesystem operations are injected as oracles:
`statSync` may return a size or throw (`ENOENT` etc.), and the renames and
unlinks of `rotateLogs` may each throw.  Stream operations
(`createWriteStream`, `write`, `end`) surface errors asynchronously through
the event loop, never as synchronous throws at the call site, so they are
modelled as non-throwing. -/

/-- Sequencing in the exception model: `exSeq x y` runs `x`, propagating a
throw, then runs `y`. -/
def exSeq (x : Except Unit Unit) (y : Except Unit Unit) : Except Unit Unit :=
  match x with
  | Except.ok _ => y
  | Except.error e => Except.error e

/-- The `try { ... } catch (error) { /* swallow */ }` block of
`ensureLogFile`: the body's outcome, exceptional or not, is contained. -/
def tryCatchUnit (x : Except Unit Unit) : Except Unit Unit :=
  match x with
  | Except.ok _ => Except.ok ()
  | Except.error _ => Except.ok ()

/-- The rotation loop `for (i = maxFiles - 1; i >= 1; i--)` of `rotateLogs`:
when archive `i` exists (`existsSync`, which never throws), the rename or
unlink of archive `i` is attempted and may throw. -/
def rotLoopE (renameFail : Nat → Bool) (existsAt : Nat → Bool) : Nat → Except Unit Unit
  | 0 => Except.ok ()
  | i + 1 =>
      exSeq (if existsAt (i + 1) then
               (if renameFail (i + 1) then Except.error () else Except.ok ())
             else Except.ok ())
        (rotLoopE renameFail existsAt i)

/-- `FileTransport.rotateLogs` in the exception model: `closeStream` (stream
`end`, non-throwing), the archive shift loop, the rename of the active file to
`.1` when it exists, then the trailing `ensureLogFile` call, whose outcome is
passed in as `nestedEnsure`. -/
def rotateLogsE (renameFail : Nat → Bool) (existsAt : Nat → Bool)
    (activeExists activeRenameFail : Bool) (maxFiles : Nat)
    (nestedEnsure : Except Unit Unit) : Except Unit Unit :=
  exSeq (rotLoopE renameFail existsAt (maxFiles - 1))
    (exSeq (if activeExists then
              (if activeRenameFail then Except.error () else Except.ok ())
            else Except.ok ())
      nestedEnsure)

/-- `FileTransport.ensureLogFile` in the exception model: the path comparison,
`closeStream` and `createWriteStream` steps do not throw synchronously; the
`statSync` call and the conditional `rotateLogs()` call are wrapped in the
try/catch.  `stat` is the oracle outcome of `fs.statSync`, and
`rotateOutcome` the outcome of `this.rotateLogs()`. -/
def ensureLogFileE (stat : Except Unit Nat) (maxFileSize : Nat)
    (rotateOutcome : Except Unit Unit) : Except Unit Unit :=
  tryCatchUnit
    (match stat with
     | Except.ok size => if size > maxFileSize then rotateOutcome else Except.ok ()
     | Except.error e => Except.error e)

/-- `FileTransport.log` in the exception model: `ensureLogFile`, then the
null-stream guard and the serialisation plus `currentStream.write` (the write
is issued asynchronously and does not throw at the call site). -/
def fileTransportLogE (stat : Except Unit Nat) (maxFileSize : Nat)
    (rotateOutcome : Except Unit Unit) : Except Unit Unit :=
  exSeq (ensureLogFileE stat maxFileSize rotateOutcome) (Except.ok ())

/-- `Logger.log` in the exception model: the `shouldLog` early return, the
console transport (console methods do not throw), then the file transport. -/
def loggerLogE (config : LoggingConfig) (level : LogLevel)
    (stat : Except Unit Nat) (rotateOutcome : Except Unit Unit) : Except Unit Unit :=
  if shouldLog level config = false then Except.ok ()
  else
    exSeq (if config.enableConsole then Except.ok () else Except.ok ())
      (if config.enableFileTransport then
         fileTransportLogE stat config.maxFileSize rotateOutcome
       else Except.ok ())

/-- The try/catch of `ensureLogFile` contains every outcome of its body. -/
theorem tryCatchUnit_ok (x : Except Unit Unit) : tryCatchUnit x = Except.ok () := by
  cases x <;> rfl

/-- C2: a `Logger.debug/info/warn/error` call never raises to its caller, for
every failure pattern of the transport operations — arbitrary `statSync`
outcome, arbitrary rename/unlink failures inside `rotateLogs` (plugged in as
the rotation outcome), and regardless of configuration.  The containment point
is the try/catch of `ensureLogFile`, which wraps both the stat and the entire
rotation. -/
theorem logger_log_never_raises (config : LoggingConfig) (level : LogLevel)
    (stat : Except Unit Nat) (renameFail : Nat → Bool) (existsAt : Nat → Bool)
    (activeExists activeRenameFail : Bool) (nestedEnsure : Except Unit Unit) :
    loggerLogE config level stat
      (rotateLogsE renameFail existsAt activeExists activeRenameFail
        config.maxFiles nestedEnsure) = Except.ok () := by
  unfold loggerLogE fileTransportLogE ensureLogFileE
  rw [tryCatchUnit_ok]
  split
  · rfl
  · simp [exSeq]

/-! ## File transport state model (src/utils/logging/transports.ts)

The transport's observable state is the content of the active log file
(`<logDir>/<logFileName>`), the contents of the numbered archive files
(`<logFileName>.<i>`, kept as a map from the numeric suffix), and whether a
write stream is currently open (`currentStream !== null`).  The directory and
file name are fixed at construction and never change, so the
`currentFile !== filePath` branch of `ensureLogFile` is dead and paths are
elided from the state. -/

structure FileTransportState where
  active : Option String
  archives : Nat → Option String
  stream : Bool

/-- `FileTransport.closeStream` / `close`: `currentStream.end()` (asynchronous,
leaves file contents alone) and `currentStream = null`. -/
def ftCloseStream (s : FileTransportState) : FileTransportState :=
  { s with stream := false }

/-- One iteration of the rotation loop at index `idx`:
`if (fs.existsSync(oldFile)) { if (i + 1 > maxFiles) unlinkSync(oldFile) else renameSync(oldFile, newFile) }`. -/
def rotStep (maxFiles idx : Nat) (a : Nat → Option String) : Nat → Option String :=
  match a idx with
  | none => a
  | some c =>
      if idx + 1 > maxFiles then fun j => if j = idx then none else a j
      else fun j => if j = idx + 1 then some c else if j = idx then none else a j

/-- The loop `for (let i = maxFiles - 1; i >= 1; i--)`: `rotLoop maxFiles i`
processes indices `i, i-1, …, 1`. -/
def rotLoop (maxFiles : Nat) : Nat → (Nat → Option String) → (Nat → Option String)
  | 0, a => a
  | i + 1, a => rotLoop maxFiles i (rotStep maxFiles (i + 1) a)

/-- `FileTransport.rotateLogs`: close the stream, shift the archives, move the
active file (when it exists) to `.1`, then `ensureLogFile()`.  The trailing
`ensureLogFile` call reopens an append stream on a fresh active file; the
fresh file has size 0, which never exceeds the threshold, so that nested call
reduces to reopening the stream on an empty active file. -/
def rotateLogs (maxFiles : Nat) (s : FileTransportState) : FileTransportState :=
  let a := rotLoop maxFiles (maxFiles - 1) s.archives
  { active := some ""
    archives := match s.active with
                | some c => fun j => if j = 1 then some c else a j
                | none => a
    stream := true }

/-- First half of `FileTransport.ensureLogFile`: when `currentStream` is null,
`createWriteStream(filePath, { flags: 'a' })` reopens the append stream,
creating the active file when absent. -/
def reopenStream (s : FileTransportState) : FileTransportState :=
  if s.stream then s
  else { s with stream := true, active := some (s.active.getD "") }

/-- Second half of `FileTransport.ensureLogFile`:
`try { statSync; if (size > maxFileSize) rotateLogs() } catch {}` — a missing
active file means the stat throws and is swallowed, so no rotation. -/
def ensureCheck (maxFiles maxFileSize : Nat) (s1 : FileTransportState) :
    FileTransportState :=
  match s1.active with
  | some c => if c.length > maxFileSize then rotateLogs maxFiles s1 else s1
  | none => s1

/-- `FileTransport.ensureLogFile`: reopen the stream if needed, then the
size check with conditional rotation. -/
def ensureLogFile (maxFiles maxFileSize : Nat) (s : FileTransportState) :
    FileTransportState :=
  ensureCheck maxFiles maxFileSize (reopenStream s)

/-- Tail of `FileTransport.log`: the `if (!this.currentStream) return` guard
followed by `currentStream.write(logLine)`, which appends the serialised line
to the active file. -/
def appendLine (line : String) (s1 : FileTransportState) : FileTransportState :=
  if s1.stream = false then s1
  else { s1 with active := some (s1.active.getD "" ++ line) }

/-- `FileTransport.log`: `ensureLogFile()`, then the stream guard and the
write. -/
def fileTransportLog (maxFiles maxFileSize : Nat) (line : String)
    (s : FileTransportState) : FileTransportState :=
  appendLine line (ensureLogFile maxFiles maxFileSize s)

/-- The state before any file activity: no active file, no archives, no open
stream. -/
def emptyFTState : FileTransportState :=
  { active := none, archives := fun _ => none, stream := false }

/-- `n` rotations from the empty state, the `k`-th rotation (0-based) firing
with active-file content `c k`. -/
def runRot (maxFiles : Nat) (c : Nat → String) : Nat → FileTransportState
  | 0 => emptyFTState
  | n + 1 => rotateLogs maxFiles { runRot maxFiles c n with active := some (c n) }

/-- Number of `unlinkSync` calls executed by one rotation-loop iteration. -/
def rotStepDel (maxFiles idx : Nat) (a : Nat → Option String) : Nat :=
  match a idx with
  | none => 0
  | some _ => if idx + 1 > maxFiles then 1 else 0

/-- Number of `unlinkSync` calls executed by the rotation loop. -/
def rotLoopDel (maxFiles : Nat) : Nat → (Nat → Option String) → Nat
  | 0, _ => 0
  | i + 1, a => rotStepDel maxFiles (i + 1) a + rotLoopDel maxFiles i (rotStep maxFiles (i + 1) a)

/-- Number of `unlinkSync` calls executed by `rotateLogs`. -/
def rotateDeletes (maxFiles : Nat) (s : FileTransportState) : Nat :=
  rotLoopDel maxFiles (maxFiles - 1) s.archives

/-- Number of rename-or-unlink filesystem mutations attempted by one
rotation-loop iteration. -/
def rotStepOps (idx : Nat) (a : Nat → Option String) : Nat :=
  match a idx with
  | none => 0
  | some _ => 1

/-- Number of rename-or-unlink mutations attempted by the rotation loop. -/
def rotLoopOps (maxFiles : Nat) : Nat → (Nat → Option String) → Nat
  | 0, _ => 0
  | i + 1, a => rotStepOps (i + 1) a + rotLoopOps maxFiles i (rotStep maxFiles (i + 1) a)

/-- Number of rename-or-unlink mutations attempted by `rotateLogs` (loop
renames/unlinks plus the rename of the active file to `.1`). -/
def rotateOps (maxFiles : Nat) (s : FileTransportState) : Nat :=
  rotLoopOps maxFiles (maxFiles - 1) s.archives +
    (match s.active with | some _ => 1 | none => 0)

/-! ### Pointwise behaviour of one rotation step -/

theorem rotStep_ne (maxFiles idx : Nat) (a : Nat → Option String) (j : Nat)
    (h1 : j ≠ idx) (h2 : j ≠ idx + 1) : rotStep maxFiles idx a j = a j := by
  unfold rotStep
  cases a idx
  · rfl
  · split
    · simp [h1]
    · simp [h1, h2]

theorem rotStep_self (maxFiles idx : Nat) (a : Nat → Option String) :
    rotStep maxFiles idx a idx = none := by
  unfold rotStep
  cases h : a idx
  · exact h
  · split
    · simp
    · have : idx ≠ idx + 1 := by omega
      simp [this]

theorem rotStep_succ (maxFiles idx : Nat) (a : Nat → Option String)
    (hidx : idx + 1 ≤ maxFiles) :
    rotStep maxFiles idx a (idx + 1) =
      (match a idx with | some c => some c | none => a (idx + 1)) := by
  unfold rotStep
  cases h : a idx
  · rfl
  · have : ¬ idx + 1 > maxFiles := by omega
    simp [this]

/-- Characterisation of the rotation loop, processing indices `i, …, 1` with
every rename in range (`i + 1 ≤ maxFiles`): archive `j` for `2 ≤ j ≤ i` ends
up holding the old archive `j - 1`; archive `i + 1` receives old archive `i`
when that existed (overwriting whatever was there); archive `1` is cleared;
all other indices are untouched. -/
theorem rotLoop_spec (maxFiles : Nat) :
    ∀ i, i + 1 ≤ maxFiles → ∀ (a : Nat → Option String) (j : Nat),
    rotLoop maxFiles i a j =
      if i = 0 then a j
      else if j = 0 then a j
      else if j = 1 then none
      else if j ≤ i then a (j - 1)
      else if j = i + 1 then (match a i with | some c => some c | none => a j)
      else a j := by
  intro i
  induction i with
  | zero => intro _ a j; simp [rotLoop]
  | succ i ih =>
    intro h a j
    have hi : i + 1 ≤ maxFiles := by omega
    have hstep : rotLoop maxFiles (i + 1) a = rotLoop maxFiles i (rotStep maxFiles (i + 1) a) := by
      simp [rotLoop]
    rw [hstep, ih hi]
    have regions : j = 0 ∨ j = 1 ∨ (2 ≤ j ∧ j ≤ i) ∨ (j = i + 1 ∧ 1 ≤ i) ∨ j = i + 2 ∨ i + 3 ≤ j := by
      omega
    rcases regions with rfl | rfl | ⟨hj2, hji⟩ | ⟨rfl, hi1⟩ | rfl | hj3
    · -- j = 0
      have e0 : rotStep maxFiles (i + 1) a 0 = a 0 :=
        rotStep_ne _ _ _ _ (by omega) (by omega)
      simp [e0]
    · -- j = 1
      by_cases hi0 : i = 0
      · subst hi0
        simpa using rotStep_self maxFiles 1 a
      · simp [hi0]
    · -- 2 ≤ j ≤ i
      have hi0 : ¬ i = 0 := by omega
      have hne : ¬ i + 1 = 0 := by omega
      have e : rotStep maxFiles (i + 1) a (j - 1) = a (j - 1) :=
        rotStep_ne _ _ _ _ (by omega) (by omega)
      trans a (j - 1)
      · rw [if_neg hi0, if_neg (show ¬ j = 0 by omega), if_neg (show ¬ j = 1 by omega),
          if_pos hji, e]
      · rw [if_neg hne, if_neg (show ¬ j = 0 by omega), if_neg (show ¬ j = 1 by omega),
          if_pos (show j ≤ i + 1 by omega)]
    · -- j = i + 1, i ≥ 1
      have hi0 : ¬ i = 0 := by omega
      have ei : rotStep maxFiles (i + 1) a i = a i :=
        rotStep_ne _ _ _ _ (by omega) (by omega)
      have eself : rotStep maxFiles (i + 1) a (i + 1) = none := rotStep_self _ _ _
      simp only [hi0, if_false, if_neg (show ¬ i + 1 = 0 by omega),
        if_neg (show ¬ i + 1 = 1 by omega), if_neg (show ¬ i + 1 ≤ i by omega),
        if_pos rfl, if_pos (show i + 1 ≤ i + 1 by omega), ei]
      have : i + 1 - 1 = i := by omega
      rw [this]
      cases ha : a i
      · simpa using eself
      · rfl
    · -- j = i + 2
      have esucc : rotStep maxFiles (i + 1) a (i + 2) =
          (match a (i + 1) with | some c => some c | none => a (i + 2)) :=
        rotStep_succ _ _ _ (by omega)
      by_cases hi0 : i = 0
      · subst hi0
        simpa using esucc
      · simp only [hi0, if_false, if_neg (show ¬ i + 1 = 0 by omega),
          if_neg (show ¬ i + 2 = 0 by omega), if_neg (show ¬ i + 2 = 1 by omega),
          if_neg (show ¬ i + 2 ≤ i by omega), if_neg (show ¬ i + 2 ≤ i + 1 by omega),
          if_neg (show ¬ i + 2 = i + 1 by omega), if_pos rfl]
        exact esucc
    · -- i + 3 ≤ j
      have e : rotStep maxFiles (i + 1) a j = a j :=
        rotStep_ne _ _ _ _ (by omega) (by omega)
      by_cases hi0 : i = 0
      · subst hi0
        simp [e, show ¬ j = 0 by omega, show ¬ j = 1 by omega, show ¬ j ≤ 1 by omega,
          show ¬ j = 2 by omega, show ¬ j ≤ 0 by omega]
      · simp only [hi0, if_false, if_neg (show ¬ i + 1 = 0 by omega),
          if_neg (show ¬ j = 0 by omega), if_neg (show ¬ j = 1 by omega),
          if_neg (show ¬ j ≤ i by omega), if_neg (show ¬ j = i + 1 by omega),
          if_neg (show ¬ j ≤ i + 1 by omega), if_neg (show ¬ j = i + 2 by omega), e]

/-! ### Basic facts about the per-write pipeline -/

theorem reopenStream_archives (s : FileTransportState) :
    (reopenStream s).archives = s.archives := by
  unfold reopenStream; split <;> rfl

theorem reopenStream_stream (s : FileTransportState) :
    (reopenStream s).stream = true := by
  unfold reopenStream
  split
  · assumption
  · rfl

theorem reopenStream_activeD (s : FileTransportState) :
    (reopenStream s).active.getD "" = s.active.getD "" := by
  unfold reopenStream; split <;> rfl

theorem appendLine_archives (line : String) (s1 : FileTransportState) :
    (appendLine line s1).archives = s1.archives := by
  unfold appendLine; split <;> rfl

theorem rotateLogs_stream (maxFiles : Nat) (s : FileTransportState) :
    (rotateLogs maxFiles s).stream = true := rfl

theorem rotateLogs_active (maxFiles : Nat) (s : FileTransportState) :
    (rotateLogs maxFiles s).active = some "" := rfl

theorem ensureCheck_stream (maxFiles maxFileSize : Nat) (s1 : FileTransportState)
    (h : s1.stream = true) :
    (ensureCheck maxFiles maxFileSize s1).stream = true := by
  unfold ensureCheck
  cases hact : s1.active
  · exact h
  · rename_i c
    show (if c.length > maxFileSize then rotateLogs maxFiles s1 else s1).stream = true
    split
    · rfl
    · exact h

/-- Archives of a rotated state whose active file existed: archive `1`
receives the active content, the rest is the shifted loop result. -/
theorem rotateLogs_archives_some (maxFiles : Nat) (s : FileTransportState)
    (c : String) (h : s.active = some c) (j : Nat) :
    (rotateLogs maxFiles s).archives j =
      if j = 1 then some c else rotLoop maxFiles (maxFiles - 1) s.archives j := by
  simp only [rotateLogs, h]

/-- Archives of a rotated state with no active file: just the shifted loop
result. -/
theorem rotateLogs_archives_none (maxFiles : Nat) (s : FileTransportState)
    (h : s.active = none) (j : Nat) :
    (rotateLogs maxFiles s).archives j =
      rotLoop maxFiles (maxFiles - 1) s.archives j := by
  simp only [rotateLogs, h]

/-- Rotation preserves the support invariant: when archives live only at
indices `1..maxFiles`, they still do after a rotation. -/
theorem rotateLogs_support (maxFiles : Nat) (s : FileTransportState)
    (hmf : 1 ≤ maxFiles)
    (hs : ∀ k, k = 0 ∨ maxFiles < k → s.archives k = none) :
    ∀ j, j = 0 ∨ maxFiles < j → (rotateLogs maxFiles s).archives j = none := by
  intro j hj
  have hloop : rotLoop maxFiles (maxFiles - 1) s.archives j = none := by
    rw [rotLoop_spec maxFiles (maxFiles - 1) (by omega)]
    rcases hj with rfl | hbig
    · by_cases h0 : maxFiles - 1 = 0 <;> simp [h0, hs 0 (Or.inl rfl)]
    · by_cases h0 : maxFiles - 1 = 0
      · simp [h0, hs j (Or.inr hbig)]
      · rw [if_neg h0, if_neg (show ¬ j = 0 by omega), if_neg (show ¬ j = 1 by omega),
          if_neg (show ¬ j ≤ maxFiles - 1 by omega),
          if_neg (show ¬ j = maxFiles - 1 + 1 by omega)]
        exact hs j (Or.inr hbig)
  cases hact : s.active
  · rw [rotateLogs_archives_none maxFiles s hact]
    exact hloop
  · rw [rotateLogs_archives_some maxFiles s _ hact, if_neg (show ¬ j = 1 by omega)]
    exact hloop

/-- The size check step preserves the support invariant. -/
theorem ensureCheck_support (maxFiles maxFileSize : Nat) (s1 : FileTransportState)
    (hmf : 1 ≤ maxFiles)
    (hs : ∀ k, k = 0 ∨ maxFiles < k → s1.archives k = none) :
    ∀ j, j = 0 ∨ maxFiles < j →
      (ensureCheck maxFiles maxFileSize s1).archives j = none := by
  intro j hj
  unfold ensureCheck
  cases hact : s1.active
  · exact hs j hj
  · rename_i c
    show (if c.length > maxFileSize then rotateLogs maxFiles s1 else s1).archives j = none
    split
    · exact rotateLogs_support maxFiles s1 hmf hs j hj
    · exact hs j hj

/-- The whole per-write pipeline preserves the support invariant. -/
theorem fileTransportLog_support (maxFiles maxFileSize : Nat) (line : String)
    (s : FileTransportState) (hmf : 1 ≤ maxFiles)
    (hs : ∀ k, k = 0 ∨ maxFiles < k → s.archives k = none) :
    ∀ j, j = 0 ∨ maxFiles < j →
      (fileTransportLog maxFiles maxFileSize line s).archives j = none := by
  intro j hj
  unfold fileTransportLog ensureLogFile
  rw [appendLine_archives]
  refine ensureCheck_support maxFiles maxFileSize (reopenStream s) hmf ?_ j hj
  intro k hk
  rw [reopenStream_archives]
  exact hs k hk

/-- Characterisation of `n` rotations from the empty state: archive `j`
(for `1 ≤ j ≤ min n maxFiles`) holds the content rotated out `j` steps ago,
nothing else exists, and the active file is fresh and empty. -/
theorem runRot_spec (maxFiles : Nat) (hmf : 1 ≤ maxFiles) (c : Nat → String) :
    ∀ n, ((runRot maxFiles c n).active = if n = 0 then none else some "")
      ∧ ∀ j, (runRot maxFiles c n).archives j =
          if 1 ≤ j ∧ j ≤ n ∧ j ≤ maxFiles then some (c (n - j)) else none := by
  intro n
  induction n with
  | zero =>
    refine ⟨rfl, fun j => ?_⟩
    rw [if_neg (by omega)]
    rfl
  | succ n ih =>
    obtain ⟨ihA, ihB⟩ := ih
    constructor
    · rw [if_neg (by omega)]
      rfl
    · intro j
      have harch : (runRot maxFiles c (n + 1)).archives j
          = if j = 1 then some (c n)
            else rotLoop maxFiles (maxFiles - 1) (runRot maxFiles c n).archives j := by
        show (rotateLogs maxFiles { runRot maxFiles c n with active := some (c n) }).archives j = _
        rw [rotateLogs_archives_some maxFiles _ (c n) rfl j]
      rw [harch]
      by_cases hj1 : j = 1
      · subst hj1
        rw [if_pos rfl, if_pos ⟨le_refl 1, by omega, hmf⟩, Nat.add_sub_cancel]
      · rw [if_neg hj1, rotLoop_spec maxFiles (maxFiles - 1) (by omega)]
        by_cases hm1 : maxFiles - 1 = 0
        · rw [if_pos hm1, ihB j, if_neg (by omega), if_neg (by omega)]
        · have hreg : j = 0 ∨ (2 ≤ j ∧ j ≤ maxFiles - 1) ∨ j = maxFiles ∨ maxFiles < j := by
            omega
          rcases hreg with rfl | ⟨h2, h3⟩ | hjm | hbig
          · rw [if_neg hm1, if_pos rfl, ihB 0, if_neg (by omega), if_neg (by omega)]
          · rw [if_neg hm1, if_neg (show ¬ j = 0 by omega), if_neg hj1,
              if_pos h3, ihB (j - 1)]
            by_cases hn : j - 1 ≤ n
            · rw [if_pos ⟨by omega, hn, by omega⟩, if_pos ⟨by omega, by omega, by omega⟩]
              have : n - (j - 1) = n + 1 - j := by omega
              rw [this]
            · rw [if_neg (by omega), if_neg (by omega)]
          · rw [hjm]
            rw [if_neg hm1, if_neg (show ¬ maxFiles = 0 by omega),
              if_neg (show ¬ maxFiles = 1 by omega),
              if_neg (show ¬ maxFiles ≤ maxFiles - 1 by omega),
              if_pos (show maxFiles = maxFiles - 1 + 1 by omega), ihB (maxFiles - 1)]
            by_cases hn : maxFiles - 1 ≤ n
            · rw [if_pos ⟨by omega, hn, by omega⟩]
              show some (c (n - (maxFiles - 1))) = _
              rw [if_pos ⟨by omega, by omega, by omega⟩]
              have : n - (maxFiles - 1) = n + 1 - maxFiles := by omega
              rw [this]
            · rw [if_neg (by omega)]
              show (runRot maxFiles c n).archives maxFiles = _
              rw [ihB maxFiles, if_neg (by omega), if_neg (by omega)]
          · rw [if_neg hm1, if_neg (show ¬ j = 0 by omega), if_neg hj1,
              if_neg (show ¬ j ≤ maxFiles - 1 by omega),
              if_neg (show ¬ j = maxFiles - 1 + 1 by omega), ihB j,
              if_neg (by omega), if_neg (by omega)]

/-! ### Helper facts for the per-write protocol -/

theorem empty_string_append (sx : String) : "" ++ sx = sx := by
  cases sx
  show String.mk ([] ++ _) = _
  rw [List.nil_append]

/-- The size check is a no-op when the active file does not exceed the
threshold (or is absent, in which case the stat throws and is swallowed). -/
theorem ensureCheck_small (maxFiles maxFileSize : Nat) (s1 : FileTransportState)
    (h : (s1.active.getD "").length ≤ maxFileSize) :
    ensureCheck maxFiles maxFileSize s1 = s1 := by
  unfold ensureCheck
  cases hact : s1.active
  · rfl
  · rename_i c
    rw [hact] at h
    show (if c.length > maxFileSize then rotateLogs maxFiles s1 else s1) = s1
    rw [if_neg (by simp at h ⊢; omega)]

/-- The size check rotates exactly when the stat'd size strictly exceeds the
threshold. -/
theorem ensureCheck_big (maxFiles maxFileSize : Nat) (s1 : FileTransportState)
    (c : String) (hact : s1.active = some c) (h : maxFileSize < c.length) :
    ensureCheck maxFiles maxFileSize s1 = rotateLogs maxFiles s1 := by
  unfold ensureCheck
  rw [hact]
  show (if c.length > maxFileSize then rotateLogs maxFiles s1 else s1) = _
  rw [if_pos h]

theorem appendLine_stream_true (line : String) (t : FileTransportState)
    (h : t.stream = true) :
    appendLine line t = { t with active := some (t.active.getD "" ++ line) } := by
  unfold appendLine
  rw [if_neg (by simp [h])]

/-! ## Claim C3: archive retention bound -/

/-- C3: the archive support invariant (`archives only at indices
`1..maxFiles`, hence at most `maxFiles` of them; the active file is a
separate, unsuffixed slot) is preserved by every write, and after
`n > maxFiles` rotations exactly the archives `1..maxFiles` exist, holding
the `maxFiles` most recently rotated contents (so the oldest contents have
been evicted), with a fresh empty active file. -/
theorem rotation_retention (maxFiles maxFileSize n : Nat) (c : Nat → String)
    (line : String) (s : FileTransportState)
    (hmf : 1 ≤ maxFiles) (hn : maxFiles < n)
    (hs : ∀ k, k = 0 ∨ maxFiles < k → s.archives k = none) :
    (∀ j, j = 0 ∨ maxFiles < j →
      (fileTransportLog maxFiles maxFileSize line s).archives j = none)
    ∧ (∀ j, 1 ≤ j → j ≤ maxFiles →
        (runRot maxFiles c n).archives j = some (c (n - j)))
    ∧ (∀ j, j = 0 ∨ maxFiles < j → (runRot maxFiles c n).archives j = none)
    ∧ (runRot maxFiles c n).active = some "" := by
  obtain ⟨hA, hB⟩ := runRot_spec maxFiles hmf c n
  refine ⟨fileTransportLog_support maxFiles maxFileSize line s hmf hs, ?_, ?_, ?_⟩
  · intro j h1 h2
    rw [hB j, if_pos ⟨h1, by omega, h2⟩]
  · intro j hj
    rw [hB j, if_neg (by omega)]
  · rw [hA, if_neg (by omega)]

/-- Witness for C3: `maxFiles = 1`, three rotations of constant content. -/
theorem rotation_retention_witness :
    ((1 : Nat) ≤ 1 ∧ (1 : Nat) < 2
      ∧ (∀ k, k = 0 ∨ 1 < k → emptyFTState.archives k = none))
    ∧ ((∀ j, j = 0 ∨ 1 < j →
          (fileTransportLog 1 10 "a" emptyFTState).archives j = none)
      ∧ (∀ j, 1 ≤ j → j ≤ 1 →
          (runRot 1 (fun _ => "x") 2).archives j = some "x")
      ∧ (∀ j, j = 0 ∨ 1 < j → (runRot 1 (fun _ => "x") 2).archives j = none)
      ∧ (runRot 1 (fun _ => "x") 2).active = some "") :=
  ⟨⟨le_refl 1, by omega, fun _ _ => rfl⟩,
    rotation_retention 1 10 2 (fun _ => "x") "a" emptyFTState (le_refl 1) (by omega)
      (fun _ _ => rfl)⟩

/-! ## Claim C4: rotation trigger and transient size bound -/

/-- C4: the active file's size is stat'd before each write and rotation fires
exactly when it strictly exceeds `maxFileSize`: a write against a
not-oversized active file only appends (no archive changes), a write against
an oversized active file archives the old content as `.1` and puts exactly
the new entry in a fresh active file (one rotation), and the active file
never exceeds `maxFileSize` by more than one entry's length. -/
theorem rotation_trigger (maxFiles maxFileSize entryLimit : Nat) (line : String)
    (s : FileTransportState) (hline : line.length ≤ entryLimit) :
    ((s.active.getD "").length ≤ maxFileSize →
        (fileTransportLog maxFiles maxFileSize line s).archives = s.archives
      ∧ (fileTransportLog maxFiles maxFileSize line s).active
          = some (s.active.getD "" ++ line))
    ∧ (∀ c, s.active = some c → maxFileSize < c.length →
        (fileTransportLog maxFiles maxFileSize line s).archives 1 = some c
      ∧ (fileTransportLog maxFiles maxFileSize line s).active = some line)
    ∧ ((fileTransportLog maxFiles maxFileSize line s).active.getD "").length
        ≤ maxFileSize + entryLimit := by
  have hA : (s.active.getD "").length ≤ maxFileSize →
      (fileTransportLog maxFiles maxFileSize line s).archives = s.archives
      ∧ (fileTransportLog maxFiles maxFileSize line s).active
          = some (s.active.getD "" ++ line) := by
    intro h
    have hlen : ((reopenStream s).active.getD "").length ≤ maxFileSize := by
      rw [reopenStream_activeD]; exact h
    unfold fileTransportLog ensureLogFile
    rw [ensureCheck_small maxFiles maxFileSize _ hlen,
      appendLine_stream_true line _ (reopenStream_stream s)]
    constructor
    · exact reopenStream_archives s
    · show some ((reopenStream s).active.getD "" ++ line) = _
      rw [reopenStream_activeD]
  have hB : ∀ c, s.active = some c → maxFileSize < c.length →
      (fileTransportLog maxFiles maxFileSize line s).archives 1 = some c
      ∧ (fileTransportLog maxFiles maxFileSize line s).active = some line := by
    intro c hact hbig
    have hract : (reopenStream s).active = some c := by
      unfold reopenStream
      split
      · exact hact
      · show some (s.active.getD "") = some c
        rw [hact]
        rfl
    unfold fileTransportLog ensureLogFile
    rw [ensureCheck_big maxFiles maxFileSize _ c hract hbig,
      appendLine_stream_true line _ (rotateLogs_stream maxFiles _)]
    constructor
    · show (rotateLogs maxFiles (reopenStream s)).archives 1 = some c
      rw [rotateLogs_archives_some maxFiles _ c hract 1, if_pos rfl]
    · show some ((rotateLogs maxFiles (reopenStream s)).active.getD "" ++ line)
          = some line
      rw [rotateLogs_active]
      show some ("" ++ line) = some line
      rw [empty_string_append]
  refine ⟨hA, hB, ?_⟩
  by_cases h : (s.active.getD "").length ≤ maxFileSize
  · obtain ⟨-, ha⟩ := hA h
    rw [ha]
    show (s.active.getD "" ++ line).length ≤ maxFileSize + entryLimit
    rw [String.length_append]
    omega
  · cases hact : s.active
    · exfalso
      apply h
      rw [hact]
      show ("" : String).length ≤ maxFileSize
      simp
    · rename_i c
      have hbig : maxFileSize < c.length := by
        rw [hact] at h
        simp at h
        exact h
      obtain ⟨-, ha⟩ := hB c hact hbig
      rw [ha]
      show line.length ≤ maxFileSize + entryLimit
      omega

/-- Witness for C4: threshold 1, oversized active file `"ab"`, entry `"z"`. -/
theorem rotation_trigger_witness :
    ("z".length ≤ 1)
    ∧ ((({ active := some "ab", archives := fun _ => none, stream := true
            : FileTransportState }.active.getD "").length ≤ 1 →
          (fileTransportLog 2 1 "z"
            { active := some "ab", archives := fun _ => none, stream := true }).archives
            = ({ active := some "ab", archives := fun _ => none, stream := true
                : FileTransportState }).archives
        ∧ (fileTransportLog 2 1 "z"
            { active := some "ab", archives := fun _ => none, stream := true }).active
            = some (({ active := some "ab", archives := fun _ => none, stream := true
                : FileTransportState }).active.getD "" ++ "z"))
      ∧ (∀ c, ({ active := some "ab", archives := fun _ => none, stream := true
            : FileTransportState }).active = some c → 1 < c.length →
          (fileTransportLog 2 1 "z"
            { active := some "ab", archives := fun _ => none, stream := true }).archives 1
            = some c
        ∧ (fileTransportLog 2 1 "z"
            { active := some "ab", archives := fun _ => none, stream := true }).active
            = some "z")
      ∧ (((fileTransportLog 2 1 "z"
            { active := some "ab", archives := fun _ => none, stream := true }).active.getD
              "").length ≤ 1 + 1)) :=
  ⟨by decide,
    rotation_trigger 2 1 1 "z"
      { active := some "ab", archives := fun _ => none, stream := true } (by decide)⟩

/-! ## Claim C5: behaviour of log calls after `close` (corrected)

The claim asserts that every log call issued after `Logger.close` is dropped
and the closed handle is not reopened.  In the code, `close` only nulls
`currentStream`; the next `FileTransport.log` calls `ensureLogFile`, whose
`if (!this.currentStream)` branch immediately recreates the write stream, so
the entry is written after all and the `if (!this.currentStream) return`
guard in `log` never fires. -/

/-- Counterexample to C5: close a transport holding `"hello"`, then log
`"x"` — the entry is appended (`"hellox"`) and a new stream is open, instead
of the call being dropped. -/
theorem close_drop_cex :
    (fileTransportLog 5 100 "x"
      (ftCloseStream
        { active := some "hello", archives := fun _ => none, stream := true })).active
      = some "hellox"
    ∧ (fileTransportLog 5 100 "x"
      (ftCloseStream
        { active := some "hello", archives := fun _ => none, stream := true })).stream
      = true := by
  constructor
  · rfl
  · rfl

/-- Amended C5: after `close`, a subsequent log call is *not* dropped —
`ensureLogFile` recreates the write stream (replacing the closed handle) and
the entry is appended to the active log file (to a fresh one if rotation
fires first). -/
theorem close_reopen_writes (maxFiles maxFileSize : Nat) (line : String)
    (s : FileTransportState) :
    (fileTransportLog maxFiles maxFileSize line (ftCloseStream s)).stream = true
    ∧ ∃ pre, (fileTransportLog maxFiles maxFileSize line (ftCloseStream s)).active
        = some (pre ++ line) := by
  constructor
  · unfold fileTransportLog ensureLogFile
    have h2 : (ensureCheck maxFiles maxFileSize
        (reopenStream (ftCloseStream s))).stream = true :=
      ensureCheck_stream _ _ _ (reopenStream_stream _)
    unfold appendLine
    split
    · exact h2
    · exact h2
  · by_cases hlen :
        ((reopenStream (ftCloseStream s)).active.getD "").length ≤ maxFileSize
    · refine ⟨(ftCloseStream s).active.getD "", ?_⟩
      unfold fileTransportLog ensureLogFile
      rw [ensureCheck_small _ _ _ hlen,
        appendLine_stream_true line _ (reopenStream_stream _)]
      show some ((reopenStream (ftCloseStream s)).active.getD "" ++ line) = _
      rw [reopenStream_activeD]
    · refine ⟨"", ?_⟩
      cases hact : (reopenStream (ftCloseStream s)).active with
      | none =>
        exfalso
        apply hlen
        rw [hact]
        show ("" : String).length ≤ maxFileSize
        simp
      | some c =>
        have hbig : maxFileSize < c.length := by
          rw [hact] at hlen
          simp at hlen
          exact hlen
        unfold fileTransportLog ensureLogFile
        rw [ensureCheck_big _ _ _ c hact hbig,
          appendLine_stream_true line _ (rotateLogs_stream _ _)]
        show some ((rotateLogs maxFiles
          (reopenStream (ftCloseStream s))).active.getD "" ++ line) = _
        rw [rotateLogs_active]
        rfl

/-! ## Claim C8: rotation idempotence (corrected)

Re-attempting rotation in a state with no files is indeed a per-rename no-op
raising nothing, but rotating twice from an oversized state is *not* the same
as rotating once: the first rotation leaves a fresh empty active file, and the
second rotation shifts every archive again and archives that empty file as
`.1`. -/

/-- Counterexample to C8: from active `"abc"` with `maxFiles = 2`, one
rotation leaves no archive `.2`, but a second rotation moves `"abc"` to `.2`
(and an empty file into `.1`), so the file sets differ. -/
theorem rotate_twice_cex :
    (rotateLogs 2 (rotateLogs 2
        { active := some "abc", archives := fun _ => none, stream := true })).archives 2
      = some "abc"
    ∧ (rotateLogs 2
        { active := some "abc", archives := fun _ => none, stream := true }).archives 2
      = none := by
  constructor
  · rfl
  · rfl

theorem rotLoop_const_none (maxFiles : Nat) :
    ∀ i, rotLoop maxFiles i (fun _ => none) = (fun _ => none) := by
  intro i
  induction i with
  | zero => rfl
  | succ i ih =>
    show rotLoop maxFiles i (rotStep maxFiles (i + 1) (fun _ => none)) = _
    have h : rotStep maxFiles (i + 1) (fun _ => none) = (fun _ => none) := rfl
    rw [h]
    exact ih

theorem rotLoopOps_const_none (maxFiles : Nat) :
    ∀ i, rotLoopOps maxFiles i (fun _ => none) = 0 := by
  intro i
  induction i with
  | zero => rfl
  | succ i ih =>
    show rotStepOps (i + 1) (fun _ => none)
        + rotLoopOps maxFiles i (rotStep maxFiles (i + 1) (fun _ => none)) = 0
    have h : rotStep maxFiles (i + 1) (fun _ => none) = (fun _ => none) := rfl
    rw [h, ih]
    rfl

/-- Amended C8: invoking `rotateLogs` in a state where neither the active
file nor any archive exists attempts no rename and no unlink (each
`existsSync` guard fails), raises nothing, and leaves the archive set empty —
only a fresh empty active file is created.  (By `rotate_twice_cex`, this
per-rename no-op behaviour does *not* make a second rotation from an
oversized state equal to a single one.) -/
theorem rotate_empty_noop (maxFiles : Nat) :
    rotateOps maxFiles emptyFTState = 0
    ∧ (∀ j, (rotateLogs maxFiles emptyFTState).archives j = none)
    ∧ (rotateLogs maxFiles emptyFTState).active = some "" := by
  refine ⟨?_, ?_, rfl⟩
  · show rotLoopOps maxFiles (maxFiles - 1) (fun _ => none) + 0 = 0
    rw [rotLoopOps_const_none maxFiles (maxFiles - 1)]
  · intro j
    rw [rotateLogs_archives_none maxFiles emptyFTState rfl j]
    show rotLoop maxFiles (maxFiles - 1) (fun _ => none) j = none
    rw [rotLoop_const_none maxFiles (maxFiles - 1)]

/-! ## Claim C10: the unlink branch is unreachable -/

theorem rotLoopDel_zero (maxFiles : Nat) :
    ∀ i, i + 1 ≤ maxFiles → ∀ a, rotLoopDel maxFiles i a = 0 := by
  intro i
  induction i with
  | zero => intro _ a; rfl
  | succ i ih =>
    intro h a
    show rotStepDel maxFiles (i + 1) a
        + rotLoopDel maxFiles i (rotStep maxFiles (i + 1) a) = 0
    have h1 : rotStepDel maxFiles (i + 1) a = 0 := by
      unfold rotStepDel
      cases a (i + 1)
      · rfl
      · show (if i + 1 + 1 > maxFiles then 1 else 0) = 0
        rw [if_neg (by omega)]
    rw [h1, ih (by omega)]

/-- C10: for `maxFiles ≥ 1` the deletion branch of `rotateLogs` is dead —
the loop index stays in `1..maxFiles-1`, so `i + 1 > maxFiles` never holds
and no `unlinkSync` is executed; eviction of the oldest archive happens by
renaming archive `maxFiles-1` over the existing archive `maxFiles`. -/
theorem unlink_unreachable (maxFiles : Nat) (s : FileTransportState)
    (hmf : 1 ≤ maxFiles) :
    rotateDeletes maxFiles s = 0
    ∧ (2 ≤ maxFiles → ∀ c, s.archives (maxFiles - 1) = some c →
        rotLoop maxFiles (maxFiles - 1) s.archives maxFiles = some c) := by
  constructor
  · exact rotLoopDel_zero maxFiles (maxFiles - 1) (by omega) s.archives
  · intro h2 c hc
    rw [rotLoop_spec maxFiles (maxFiles - 1) (by omega)]
    rw [if_neg (show ¬ maxFiles - 1 = 0 by omega),
      if_neg (show ¬ maxFiles = 0 by omega),
      if_neg (show ¬ maxFiles = 1 by omega),
      if_neg (show ¬ maxFiles ≤ maxFiles - 1 by omega),
      if_pos (show maxFiles = maxFiles - 1 + 1 by omega), hc]

/-- Witness for C10: `maxFiles = 2` with one archive at index 1. -/
theorem unlink_unreachable_witness :
    ((1 : Nat) ≤ 2)
    ∧ (rotateDeletes 2
        { active := none, archives := fun j => if j = 1 then some "a" else none,
          stream := true } = 0
      ∧ (2 ≤ 2 → ∀ c,
          ({ active := none, archives := fun j => if j = 1 then some "a" else none,
             stream := true : FileTransportState }).archives (2 - 1) = some c →
          rotLoop 2 (2 - 1)
            ({ active := none, archives := fun j => if j = 1 then some "a" else none,
               stream := true : FileTransportState }).archives 2 = some c)) :=
  ⟨by omega,
    unlink_unreachable 2
      { active := none, archives := fun j => if j = 1 then some "a" else none,
        stream := true } (by omega)⟩

/-! ## Console transport (src/utils/logging/transports.ts, ConsoleTransport) -/

/-- Which console method a line is written with (`console.error/warn/debug/log`). -/
inductive ConsoleMethod where
  | cerror
  | cwarn
  | cdebug
  | clog
deriving DecidableEq, Repr

/-- One console emission: either a formatted text line or the
`('  Metadata:', entry.metadata)` object dump. -/
inductive ConsoleOut where
  | line (m : ConsoleMethod) (text : String)
  | metaOut (m : ConsoleMethod) (md : List (String × String))
deriving DecidableEq, Repr

/-- `ConsoleTransport.getColor`: the ANSI colour prefix per severity. -/
def getColor (level : LogLevel) : String :=
  match level with
  | LogLevel.debug => "\x1b[36m"
  | LogLevel.info => "\x1b[32m"
  | LogLevel.warn => "\x1b[33m"
  | LogLevel.error => "\x1b[31m"

/-- The ANSI reset suffix appended after each coloured line. -/
def colorReset : String := "\x1b[0m"

/-- `level.toUpperCase()` for the four severity strings. -/
def levelUpper (level : LogLevel) : String :=
  match level with
  | LogLevel.debug => "DEBUG"
  | LogLevel.info => "INFO"
  | LogLevel.warn => "WARN"
  | LogLevel.error => "ERROR"

/-- `ConsoleTransport.formatLog`:
`[timestamp] [LEVEL]` then optional `[requestId]`, optional `[context]`,
then the message. -/
def consoleFormatLog (e : LogEntry) : String :=
  "[" ++ e.timestamp ++ "] [" ++ levelUpper e.level ++ "]"
    ++ (match e.requestId with
        | some r => " [" ++ r ++ "]"
        | none => "")
    ++ (match e.context with
        | some cx => " [" ++ cx ++ "]"
        | none => "")
    ++ " " ++ e.message

/-- The console method conventionally used for each severity
(the `switch` in `ConsoleTransport.log`). -/
def consoleMethodFor (level : LogLevel) : ConsoleMethod :=
  match level with
  | LogLevel.error => ConsoleMethod.cerror
  | LogLevel.warn => ConsoleMethod.cwarn
  | LogLevel.debug => ConsoleMethod.cdebug
  | LogLevel.info => ConsoleMethod.clog

/-- `ConsoleTransport.log`: the coloured main line, then — only in the
`error` case — the `  Error:` line and (when a stack is present) the
`  Stack:` line, and in every case the metadata dump when metadata is
present.  The `warn`, `debug` and default branches emit only the main line
and the metadata dump. -/
def consoleTransportLog (e : LogEntry) : List ConsoleOut :=
  let f := getColor e.level ++ consoleFormatLog e ++ colorReset
  match e.level with
  | LogLevel.error =>
      ConsoleOut.line ConsoleMethod.cerror f ::
        ((match e.error with
          | some eo =>
              ConsoleOut.line ConsoleMethod.cerror ("  Error: " ++ eo.message) ::
                (match eo.stack with
                 | some st => [ConsoleOut.line ConsoleMethod.cerror ("  Stack: " ++ st)]
                 | none => [])
          | none => []) ++
         (match e.metadata with
          | some md => [ConsoleOut.metaOut ConsoleMethod.cerror md]
          | none => []))
  | LogLevel.warn =>
      ConsoleOut.line ConsoleMethod.cwarn f ::
        (match e.metadata with
         | some md => [ConsoleOut.metaOut ConsoleMethod.cwarn md]
         | none => [])
  | LogLevel.debug =>
      ConsoleOut.line ConsoleMethod.cdebug f ::
        (match e.metadata with
         | some md => [ConsoleOut.metaOut ConsoleMethod.cdebug md]
         | none => [])
  | LogLevel.info =>
      ConsoleOut.line ConsoleMethod.clog f ::
        (match e.metadata with
         | some md => [ConsoleOut.metaOut ConsoleMethod.clog md]
         | none => [])

/-! ## Claim C6: console emission of error details (corrected)

The claim says error *and warn* entries carrying an error object emit the
error's message and stack.  The `warn` branch of `ConsoleTransport.log`
ignores `entry.error` entirely: only the `error` branch prints `  Error:` /
`  Stack:` lines. -/

/-- Counterexample to C6: a `warn` entry carrying an error object emits no
`  Error:` line (its whole output is the single main line). -/
theorem warn_error_line_cex :
    ({ timestamp := "t", level := LogLevel.warn, message := "m", context := none,
       error := some { message := "boom", stack := none, name := "Error" },
       metadata := none, requestId := none, userId := none : LogEntry }).level
        = LogLevel.warn
    ∧ ({ timestamp := "t", level := LogLevel.warn, message := "m", context := none,
         error := some { message := "boom", stack := none, name := "Error" },
         metadata := none, requestId := none, userId := none : LogEntry }).error
        = some { message := "boom", stack := none, name := "Error" }
    ∧ ConsoleOut.line ConsoleMethod.cwarn ("  Error: " ++ "boom") ∉
        consoleTransportLog
          { timestamp := "t", level := LogLevel.warn, message := "m", context := none,
            error := some { message := "boom", stack := none, name := "Error" },
            metadata := none, requestId := none, userId := none }
    ∧ ConsoleOut.line ConsoleMethod.cerror ("  Error: " ++ "boom") ∉
        consoleTransportLog
          { timestamp := "t", level := LogLevel.warn, message := "m", context := none,
            error := some { message := "boom", stack := none, name := "Error" },
            metadata := none, requestId := none, userId := none } := by
  refine ⟨rfl, rfl, ?_, ?_⟩ <;> decide

/-- Amended C6: only `error` entries emit the error's message and stack lines
(each on its own line, the stack only when present); the metadata dump is
emitted for entries of every severity when metadata is present; a `warn`
entry's only text line is its coloured main line — the error object is never
printed for `warn`. -/
theorem console_emission (e : LogEntry) :
    (e.level = LogLevel.error → ∀ eo, e.error = some eo →
        ConsoleOut.line ConsoleMethod.cerror ("  Error: " ++ eo.message)
            ∈ consoleTransportLog e
        ∧ (∀ st, eo.stack = some st →
            ConsoleOut.line ConsoleMethod.cerror ("  Stack: " ++ st)
              ∈ consoleTransportLog e))
    ∧ (∀ md, e.metadata = some md →
        ConsoleOut.metaOut (consoleMethodFor e.level) md ∈ consoleTransportLog e)
    ∧ (e.level = LogLevel.warn → ∀ t, ConsoleOut.line ConsoleMethod.cwarn t
          ∈ consoleTransportLog e →
        t = getColor LogLevel.warn ++ consoleFormatLog e ++ colorReset) := by
  refine ⟨?_, ?_, ?_⟩
  · intro hl eo heo
    constructor
    · simp [consoleTransportLog, hl, heo]
    · intro st hst
      simp [consoleTransportLog, hl, heo, hst]
  · intro md hmd
    cases hl : e.level <;>
      simp [consoleTransportLog, hl, hmd, consoleMethodFor]
  · intro hl t ht
    rw [consoleTransportLog] at ht
    simp [hl] at ht
    rcases ht with h1 | h2
    · exact h1
    · exfalso
      cases hmd : e.metadata <;> rw [hmd] at h2 <;> simp at h2

/-- Witness for C6 (amended): an `error` entry with stack and metadata, and a
`warn` entry's main line. -/
theorem console_emission_witness :
    (ConsoleOut.line ConsoleMethod.cerror ("  Error: " ++ "b") ∈
        consoleTransportLog
          { timestamp := "t", level := LogLevel.error, message := "m",
            context := none,
            error := some { message := "b", stack := some "s", name := "E" },
            metadata := some [("k", "v")], requestId := none, userId := none }
      ∧ ConsoleOut.line ConsoleMethod.cerror ("  Stack: " ++ "s") ∈
        consoleTransportLog
          { timestamp := "t", level := LogLevel.error, message := "m",
            context := none,
            error := some { message := "b", stack := some "s", name := "E" },
            metadata := some [("k", "v")], requestId := none, userId := none })
    ∧ ConsoleOut.metaOut (consoleMethodFor LogLevel.error) [("k", "v")] ∈
        consoleTransportLog
          { timestamp := "t", level := LogLevel.error, message := "m",
            context := none,
            error := some { message := "b", stack := some "s", name := "E" },
            metadata := some [("k", "v")], requestId := none, userId := none } :=
  ⟨⟨((console_emission _).1 rfl _ rfl).1,
    ((console_emission _).1 rfl _ rfl).2 "s" rfl⟩,
    (console_emission _).2.1 [("k", "v")] rfl⟩

/-! ## JSON serialisation of log entries (FileTransport, `format: 'json'`)

`FileTransport.log` writes `JSON.stringify(entry) + '\n'`.  The JSON values
reachable from a `LogEntry` are strings and string-valued objects, so the
grammar is modelled by `JVal` below.  `JSON.stringify` escapes `"` and `\`
inside strings (the model passes other characters through unchanged and the
parser accepts them unchanged, so the round-trip matches the real pair) and
omits fields whose value is `undefined`. -/

/-- JSON values reachable from a `LogEntry`: strings and objects with
ordered fields. -/
inductive JVal where
  | jstr (s : String)
  | jobj (fields : List (String × JVal))

/-- String-body escaping of `JSON.stringify`: quote and backslash. -/
def escChar (c : Char) : List Char :=
  if c = '"' ∨ c = '\\' then ['\\', c] else [c]

def escape : List Char → List Char
  | [] => []
  | c :: cs => escChar c ++ escape cs

/-- A JSON string literal: `"` body `"` with escaping. -/
def strLit (s : String) : List Char :=
  '"' :: (escape s.data ++ ['"'])

mutual
/-- Serialisation of a `JVal`, exactly as `JSON.stringify` renders it
(no whitespace, fields in insertion order). -/
def valChars : JVal → List Char
  | JVal.jstr s => strLit s
  | JVal.jobj fs => '{' :: (fieldsChars fs ++ ['}'])
/-- Serialisation of an object body: comma-separated `"key":value` pairs. -/
def fieldsChars : List (String × JVal) → List Char
  | [] => []
  | (k, v) :: rest =>
      strLit k ++ (':' :: valChars v) ++
        (match rest with
         | [] => []
         | _ :: _ => ',' :: fieldsChars rest)
end

/-- Parser for the body of a JSON string literal (after the opening `"`):
a backslash takes the following character literally, the closing `"` ends
the literal.  Returns the body and the remaining input. -/
def parseStrAux : List Char → Option (List Char × List Char)
  | [] => none
  | c :: rest =>
      if c = '"' then some ([], rest)
      else if c = '\\' then
        match rest with
        | [] => none
        | d :: rest2 =>
            match parseStrAux rest2 with
            | some (sx, r) => some (d :: sx, r)
            | none => none
      else
        match parseStrAux rest with
        | some (sx, r) => some (c :: sx, r)
        | none => none

mutual
/-- Fuelled JSON value parser for the `JVal` grammar. -/
def parseVal : Nat → List Char → Option (JVal × List Char)
  | 0, _ => none
  | _ + 1, [] => none
  | fuel + 1, c :: rest =>
      if c = '"' then
        match parseStrAux rest with
        | some (cs, r) => some (JVal.jstr (String.mk cs), r)
        | none => none
      else if c = '{' then
        match rest with
        | '}' :: r2 => some (JVal.jobj [], r2)
        | _ =>
            match parseFields fuel rest with
            | some (fs, r) => some (JVal.jobj fs, r)
            | none => none
      else none
/-- Fuelled parser for a non-empty object body up to and including the
closing `}`. -/
def parseFields : Nat → List Char → Option (List (String × JVal) × List Char)
  | 0, _ => none
  | _ + 1, [] => none
  | fuel + 1, c :: rest =>
      if c = '"' then
        match parseStrAux rest with
        | some (k, r1) =>
            match r1 with
            | ':' :: r2 =>
                match parseVal fuel r2 with
                | some (v, r3) =>
                    match r3 with
                    | ',' :: r4 =>
                        (match parseFields fuel r4 with
                         | some (fs, r5) => some ((String.mk k, v) :: fs, r5)
                         | none => none)
                    | '}' :: r4 => some ([(String.mk k, v)], r4)
                    | _ => none
                | none => none
            | _ => none
        | none => none
      else none
end

/-! ### Round-trip lemmas -/

theorem stringMk_data (s : String) : String.mk s.data = s := rfl

/-- Unparsing then parsing a string body is the identity. -/
theorem parseStr_escape : ∀ (cs rest : List Char),
    parseStrAux (escape cs ++ '"' :: rest) = some (cs, rest) := by
  intro cs
  induction cs with
  | nil =>
    intro rest
    rw [show escape [] ++ '"' :: rest = '"' :: rest by simp [escape]]
    rw [parseStrAux.eq_def]
    simp
  | cons c cs ih =>
    intro rest
    by_cases h1 : c = '"'
    · subst h1
      rw [show escape ('"' :: cs) ++ '"' :: rest
          = '\\' :: '"' :: (escape cs ++ '"' :: rest) by simp [escape, escChar]]
      rw [parseStrAux.eq_def]
      simp [ih]
    · by_cases h2 : c = '\\'
      · subst h2
        rw [show escape ('\\' :: cs) ++ '"' :: rest
            = '\\' :: '\\' :: (escape cs ++ '"' :: rest) by simp [escape, escChar]]
        rw [parseStrAux.eq_def]
        simp [ih]
      · rw [show escape (c :: cs) ++ '"' :: rest
            = c :: (escape cs ++ '"' :: rest) by simp [escape, escChar, h1, h2]]
        rw [parseStrAux.eq_def]
        simp [h1, h2, ih]

/-- `v` serialises and re-parses correctly at every fuel at least `N`. -/
def GoodVGe (N : Nat) (v : JVal) : Prop :=
  ∀ fuel, N ≤ fuel → ∀ rest, parseVal fuel (valChars v ++ rest) = some (v, rest)

theorem GoodVGe_mono (N M : Nat) (v : JVal) (h : N ≤ M) (hg : GoodVGe N v) :
    GoodVGe M v :=
  fun fuel hf rest => hg fuel (le_trans h hf) rest

theorem good_jstr (s : String) : GoodVGe 1 (JVal.jstr s) := by
  intro fuel hf rest
  cases fuel with
  | zero => omega
  | succ m =>
    have e : valChars (JVal.jstr s) ++ rest
        = '"' :: (escape s.data ++ '"' :: rest) := by
      simp [valChars, strLit]
    rw [e]
    simp [parseVal, parseStr_escape, stringMk_data]

/-- Parsing the serialised body of a non-empty field list whose values all
round-trip, with fuel at least `N` plus one unit per field. -/
theorem parseFields_round (N : Nat) :
    ∀ (fs : List (String × JVal)), fs ≠ [] →
    (∀ p ∈ fs, GoodVGe N p.2) →
    ∀ fuel, N + fs.length ≤ fuel → ∀ rest,
    parseFields fuel (fieldsChars fs ++ '}' :: rest) = some (fs, rest) := by
  intro fs
  induction fs with
  | nil => intro h; exact absurd rfl h
  | cons p fsTail ih =>
    intro _ hgood fuel hfuel rest
    obtain ⟨k, v⟩ := p
    cases fuel with
    | zero =>
      exfalso
      have : 1 ≤ ((k, v) :: fsTail).length := by simp
      omega
    | succ m =>
      have hv : GoodVGe N v := hgood (k, v) (by simp)
      have hm : N ≤ m := by
        have : ((k, v) :: fsTail).length = fsTail.length + 1 := by simp
        omega
      cases fsTail with
      | nil =>
        have e : fieldsChars [(k, v)] ++ '}' :: rest
            = '"' :: (escape k.data ++ '"' :: ':' :: (valChars v ++ '}' :: rest)) := by
          simp [fieldsChars, strLit]
        rw [e]
        have hv' := hv m hm ('}' :: rest)
        simp [parseFields, parseStr_escape, hv', stringMk_data]
      | cons q t =>
        have e : fieldsChars ((k, v) :: q :: t) ++ '}' :: rest
            = '"' :: (escape k.data ++ '"' :: ':' ::
                (valChars v ++ ',' :: (fieldsChars (q :: t) ++ '}' :: rest))) := by
          simp [fieldsChars, strLit]
        rw [e]
        have hv' := hv m hm (',' :: (fieldsChars (q :: t) ++ '}' :: rest))
        have ihfuel : N + (q :: t).length ≤ m := by
          have : ((k, v) :: q :: t).length = (q :: t).length + 1 := by simp
          omega
        have ih' := ih (by simp)
          (fun p hp => hgood p (List.mem_cons_of_mem _ hp)) m ihfuel rest
        simp [parseFields, parseStr_escape, hv', ih', stringMk_data]

/-- An object all of whose field values round-trip at fuel `N` round-trips at
fuel `N + |fields| + 1`. -/
theorem good_jobj (fs : List (String × JVal)) (N : Nat)
    (hfs : ∀ p ∈ fs, GoodVGe N p.2) :
    GoodVGe (N + fs.length + 1) (JVal.jobj fs) := by
  intro fuel hf rest
  cases fuel with
  | zero => omega
  | succ m =>
    cases fs with
    | nil => rfl
    | cons p t =>
      obtain ⟨k, v⟩ := p
      have hfuel : N + ((k, v) :: t).length ≤ m := by
        simp only [List.length_cons] at hf ⊢
        omega
      have hpf := parseFields_round N ((k, v) :: t) (by simp) hfs m hfuel rest
      cases t with
      | nil =>
        have e2 : fieldsChars [(k, v)] ++ '}' :: rest
            = '"' :: (escape k.data ++ '"' :: ':' :: (valChars v ++ '}' :: rest)) := by
          simp [fieldsChars, strLit]
        have e : valChars (JVal.jobj [(k, v)]) ++ rest
            = '{' :: ('"' ::
                (escape k.data ++ '"' :: ':' :: (valChars v ++ '}' :: rest))) := by
          rw [show valChars (JVal.jobj [(k, v)]) ++ rest
              = '{' :: (fieldsChars [(k, v)] ++ '}' :: rest) by simp [valChars], e2]
        rw [e]
        rw [e2] at hpf
        simp [parseVal, hpf]
      | cons q t2 =>
        have e2 : fieldsChars ((k, v) :: q :: t2) ++ '}' :: rest
            = '"' :: (escape k.data ++ '"' :: ':' ::
                (valChars v ++ ',' :: (fieldsChars (q :: t2) ++ '}' :: rest))) := by
          simp [fieldsChars, strLit]
        have e : valChars (JVal.jobj ((k, v) :: q :: t2)) ++ rest
            = '{' :: ('"' :: (escape k.data ++ '"' :: ':' ::
                (valChars v ++ ',' :: (fieldsChars (q :: t2) ++ '}' :: rest)))) := by
          rw [show valChars (JVal.jobj ((k, v) :: q :: t2)) ++ rest
              = '{' :: (fieldsChars ((k, v) :: q :: t2) ++ '}' :: rest)
              by simp [valChars], e2]
        rw [e]
        rw [e2] at hpf
        simp [parseVal, hpf]

/-! ### JSON view of a `LogEntry`

`JSON.stringify(entry)` renders own fields in insertion order —
`timestamp, level, message, context, error, metadata, requestId, userId` per
the `LogEntry` interface — and drops fields whose value is `undefined`; the
nested error object renders `message, stack, name` likewise. -/

/-- The string value of a severity in JSON output. -/
def levelToString (level : LogLevel) : String :=
  match level with
  | LogLevel.debug => "debug"
  | LogLevel.info => "info"
  | LogLevel.warn => "warn"
  | LogLevel.error => "error"

/-- JSON fields of the `{message, stack?, name}` error object. -/
def errorFields (eo : ErrorInfo) : List (String × JVal) :=
  ("message", JVal.jstr eo.message) ::
    ((match eo.stack with
      | some st => [("stack", JVal.jstr st)]
      | none => []) ++ [("name", JVal.jstr eo.name)])

/-- JSON fields of the metadata map. -/
def mdFields (md : List (String × String)) : List (String × JVal) :=
  md.map (fun p => (p.1, JVal.jstr p.2))

/-- JSON fields of a `LogEntry`, with `undefined` fields omitted. -/
def entryTopFields (e : LogEntry) : List (String × JVal) :=
  ("timestamp", JVal.jstr e.timestamp) ::
  ("level", JVal.jstr (levelToString e.level)) ::
  ("message", JVal.jstr e.message) ::
    ((match e.context with
      | some cx => [("context", JVal.jstr cx)]
      | none => []) ++
     ((match e.error with
       | some eo => [("error", JVal.jobj (errorFields eo))]
       | none => []) ++
      ((match e.metadata with
        | some md => [("metadata", JVal.jobj (mdFields md))]
        | none => []) ++
       ((match e.requestId with
         | some r => [("requestId", JVal.jstr r)]
         | none => []) ++
        (match e.userId with
         | some u => [("userId", JVal.jstr u)]
         | none => [])))))

/-- `JSON.stringify(entry)` as a `JVal`. -/
def entryJson (e : LogEntry) : JVal := JVal.jobj (entryTopFields e)

/-- The line `FileTransport.log` writes in `json` format:
`JSON.stringify(entry) + '\n'`. -/
def fileLogLineJson (e : LogEntry) : String :=
  String.mk (valChars (entryJson e) ++ ['\n'])

/-- JavaScript property lookup on a parsed object's field list. -/
def getField : List (String × JVal) → String → Option JVal
  | [], _ => none
  | (k2, v) :: rest, k => if k2 = k then some v else getField rest k

/-- Length of the metadata map (0 when absent). -/
def mdLen (e : LogEntry) : Nat := (e.metadata.getD []).length

/-- Fuel sufficient to parse a serialised entry. -/
def entryFuel (e : LogEntry) : Nat := mdLen e + 14

/-- Every top-level field value of an entry round-trips at fuel
`mdLen e + 5`. -/
theorem entryTopFields_good (e : LogEntry) :
    ∀ p ∈ entryTopFields e, GoodVGe (mdLen e + 5) p.2 := by
  have hstr : ∀ s : String, GoodVGe (mdLen e + 5) (JVal.jstr s) :=
    fun s => GoodVGe_mono 1 _ _ (by omega) (good_jstr s)
  have herr : ∀ eo : ErrorInfo, GoodVGe (mdLen e + 5) (JVal.jobj (errorFields eo)) := by
    intro eo
    have h1 : ∀ p ∈ errorFields eo, GoodVGe 1 p.2 := by
      intro p hp
      unfold errorFields at hp
      rcases List.mem_cons.mp hp with rfl | hp
      · exact good_jstr _
      rcases List.mem_append.mp hp with hp | hp
      · cases hst : eo.stack with
        | none => rw [hst] at hp; simp at hp
        | some st =>
          rw [hst] at hp
          simp at hp
          subst hp
          exact good_jstr _
      · simp at hp
        subst hp
        exact good_jstr _
    have h2 := good_jobj (errorFields eo) 1 h1
    refine GoodVGe_mono _ _ _ ?_ h2
    have hlen : (errorFields eo).length ≤ 3 := by
      unfold errorFields
      cases eo.stack <;> simp
    omega
  have hmdg : ∀ md, e.metadata = some md →
      GoodVGe (mdLen e + 5) (JVal.jobj (mdFields md)) := by
    intro md hmdeq
    have h1 : ∀ p ∈ mdFields md, GoodVGe 1 p.2 := by
      intro p hp
      unfold mdFields at hp
      rcases List.mem_map.mp hp with ⟨q, hq, rfl⟩
      exact good_jstr _
    have h2 := good_jobj (mdFields md) 1 h1
    refine GoodVGe_mono _ _ _ ?_ h2
    have hl1 : (mdFields md).length = md.length := by simp [mdFields]
    have hl2 : mdLen e = md.length := by simp [mdLen, hmdeq]
    omega
  intro p hp
  unfold entryTopFields at hp
  rcases List.mem_cons.mp hp with rfl | hp
  · exact hstr _
  rcases List.mem_cons.mp hp with rfl | hp
  · exact hstr _
  rcases List.mem_cons.mp hp with rfl | hp
  · exact hstr _
  rcases List.mem_append.mp hp with hp | hp
  · cases hcx : e.context with
    | none => rw [hcx] at hp; simp at hp
    | some cx =>
      rw [hcx] at hp
      simp at hp
      subst hp
      exact hstr _
  rcases List.mem_append.mp hp with hp | hp
  · cases her : e.error with
    | none => rw [her] at hp; simp at hp
    | some eo =>
      rw [her] at hp
      simp at hp
      subst hp
      exact herr _
  rcases List.mem_append.mp hp with hp | hp
  · cases hmd : e.metadata with
    | none => rw [hmd] at hp; simp at hp
    | some md =>
      rw [hmd] at hp
      simp at hp
      subst hp
      exact hmdg md hmd
  rcases List.mem_append.mp hp with hp | hp
  · cases hr : e.requestId with
    | none => rw [hr] at hp; simp at hp
    | some r =>
      rw [hr] at hp
      simp at hp
      subst hp
      exact hstr _
  · cases hu : e.userId with
    | none => rw [hu] at hp; simp at hp
    | some u =>
      rw [hu] at hp
      simp at hp
      subst hp
      exact hstr _

/-- An entry has at most 8 top-level JSON fields. -/
theorem entryTopFields_len (e : LogEntry) : (entryTopFields e).length ≤ 8 := by
  unfold entryTopFields
  cases e.context <;> cases e.error <;> cases e.metadata <;>
    cases e.requestId <;> cases e.userId <;> simp

/-- The serialised entry round-trips at fuel `entryFuel e`. -/
theorem entryJson_good (e : LogEntry) : GoodVGe (entryFuel e) (entryJson e) := by
  have h := good_jobj (entryTopFields e) (mdLen e + 5) (entryTopFields_good e)
  refine GoodVGe_mono _ _ _ ?_ h
  have := entryTopFields_len e
  unfold entryFuel
  omega

/-! ## Claim C7: JSON round-trip -/

/-- C7: parsing the line written by the file transport in `json` format (with
any sufficient fuel) yields back exactly the entry's JSON object, leaving the
trailing newline; and on that object each claimed field — `message`, `level`,
`context`, `requestId`, `metadata` — looks up to exactly the entry's value
(absent optional fields parse as absent keys). -/
theorem json_roundtrip (e : LogEntry) (fuel : Nat) (hf : entryFuel e ≤ fuel) :
    parseVal fuel ((fileLogLineJson e).toList) = some (entryJson e, ['\n'])
    ∧ getField (entryTopFields e) "message" = some (JVal.jstr e.message)
    ∧ getField (entryTopFields e) "level" = some (JVal.jstr (levelToString e.level))
    ∧ getField (entryTopFields e) "context" = e.context.map JVal.jstr
    ∧ getField (entryTopFields e) "requestId" = e.requestId.map JVal.jstr
    ∧ getField (entryTopFields e) "metadata"
        = e.metadata.map (fun md => JVal.jobj (mdFields md)) := by
  refine ⟨?_, ?_, ?_, ?_, ?_, ?_⟩
  · have e1 : (fileLogLineJson e).toList = valChars (entryJson e) ++ ['\n'] := rfl
    rw [e1]
    exact entryJson_good e fuel hf ['\n']
  · rfl
  · rfl
  · obtain ⟨ts, lv, msg, cx, er, md, rid, uid⟩ := e
    cases cx <;> cases er <;> cases md <;> cases rid <;> cases uid <;> rfl
  · obtain ⟨ts, lv, msg, cx, er, md, rid, uid⟩ := e
    cases cx <;> cases er <;> cases md <;> cases rid <;> cases uid <;> rfl
  · obtain ⟨ts, lv, msg, cx, er, md, rid, uid⟩ := e
    cases cx <;> cases er <;> cases md <;> cases rid <;> cases uid <;> rfl

/-- A fully-populated sample entry for the C7 witness. -/
def sampleEntry : LogEntry :=
  { timestamp := "T", level := LogLevel.info, message := "m\"x",
    context := some "HTTP",
    error := some { message := "b", stack := some "s", name := "E" },
    metadata := some [("k", "v")], requestId := some "r", userId := none }

/-- Witness for C7 at `sampleEntry` with fuel 15. -/
theorem json_roundtrip_witness :
    (entryFuel sampleEntry ≤ 15)
    ∧ (parseVal 15 ((fileLogLineJson sampleEntry).toList)
          = some (entryJson sampleEntry, ['\n'])
      ∧ getField (entryTopFields sampleEntry) "message"
          = some (JVal.jstr sampleEntry.message)
      ∧ getField (entryTopFields sampleEntry) "level"
          = some (JVal.jstr (levelToString sampleEntry.level))
      ∧ getField (entryTopFields sampleEntry) "context"
          = sampleEntry.context.map JVal.jstr
      ∧ getField (entryTopFields sampleEntry) "requestId"
          = sampleEntry.requestId.map JVal.jstr
      ∧ getField (entryTopFields sampleEntry) "metadata"
          = sampleEntry.metadata.map (fun md => JVal.jobj (mdFields md))) :=
  ⟨by decide, json_roundtrip sampleEntry 15 (by decide)⟩
